import Mathlib

/-!
Verification of the backtest engine in
`src/services/trading-engine/backtest/backtest.py`.

Prices, balances and pnl are modelled as rationals (the Python floats,
idealized to exact arithmetic). The `rsi_14` column attached by
`add_indicators` can be NaN during the indicator warm-up; a NaN compares
false against both thresholds, so the column is modelled as `Option ℚ`
with `none` for NaN, and the simulation step leaves the state untouched
on `none`, exactly as `rsi < 30` / `rsi > 70` both evaluate false on NaN.
-/

namespace Backtest

/-- Module constant `INITIAL_BALANCE = 10000` in backtest.py. -/
def INITIAL_BALANCE : ℚ := 10000

/-- Module constant `STAKE_AMOUNT = 10` in backtest.py. -/
def STAKE_AMOUNT : ℚ := 10

/-- One entry of `self.trades`: the `BUY` dict has keys
`type, price, time`; the `SELL` dict additionally has `pnl, balance`. -/
inductive TradeEvent where
  | buy (price : ℚ) (time : ℕ)
  | sell (price : ℚ) (time : ℕ) (pnl : ℚ) (balance : ℚ)
deriving DecidableEq, Repr

/-- Whether the journal entry is a SELL (the code tests the type key). -/
def TradeEvent.isSell : TradeEvent → Bool
  | .sell _ _ _ _ => true
  | .buy _ _ => false

/-- Whether the journal entry is a BUY (the code tests the type key). -/
def TradeEvent.isBuy : TradeEvent → Bool
  | .sell _ _ _ _ => false
  | .buy _ _ => true

/-- The pnl lookup with default 0 (a BUY dict has no pnl key). -/
def TradeEvent.pnlOrZero : TradeEvent → ℚ
  | .buy _ _ => 0
  | .sell _ _ p _ => p

/-- One row of the indicator-augmented dataframe as consumed by
`run_simulation`: the price column, the index timestamp, the rsi_14 column.
Timestamps are modelled by their ordinal position. -/
structure Row where
  price : ℚ
  time : ℕ
  rsi : Option ℚ
deriving DecidableEq, Repr

/-- The mutable state of `run_simulation` together with the engine
fields it touches (`self.balance`, `self.trades`). -/
structure SimState where
  in_position : Bool
  entry_price : ℚ
  entry_time : Option ℕ
  balance : ℚ
  trades : List TradeEvent
deriving DecidableEq, Repr

/-- State at the top of `run_simulation`: `in_position = False`,
`entry_price = 0`, `entry_time = None`, with `self.balance` and
`self.trades` as set by `__init__`. -/
def initState : SimState :=
  { in_position := false, entry_price := 0, entry_time := none,
    balance := INITIAL_BALANCE, trades := [] }

/-- The body of the `for index, row in self.df.iterrows()` loop. -/
def step (s : SimState) (r : Row) : SimState :=
  match r.rsi with
  | none => s
  | some rsi =>
    if s.in_position = false ∧ rsi < 30 then
      { s with entry_price := r.price, entry_time := some r.time,
               in_position := true,
               trades := s.trades ++ [TradeEvent.buy r.price r.time] }
    else if s.in_position = true ∧ rsi > 70 then
      let pnl := r.price - s.entry_price
      let newBal := s.balance + pnl * STAKE_AMOUNT
      { s with balance := newBal, in_position := false,
               trades := s.trades ++
                 [TradeEvent.sell r.price r.time (pnl * STAKE_AMOUNT) newBal] }
    else s

/-- The whole loop of `run_simulation`, from an arbitrary state. -/
def runSim (s : SimState) : List Row → SimState
  | [] => s
  | r :: rs => runSim (step s r) rs

/-- Method `run_simulation` on a freshly constructed engine. -/
def runSimulation (rows : List Row) : SimState :=
  runSim initState rows

/-- The report dict assembled by `generate_report`. -/
structure Report where
  initial_balance : ℚ
  final_balance : ℚ
  total_trades : ℕ
  win_rate : ℚ
  trades : List TradeEvent
deriving DecidableEq, Repr

/-- Method `generate_report`: `total_trades` counts SELL entries, `wins`
counts entries whose pnl lookup (default 0) is positive, over the whole
journal. -/
def generate_report (trades : List TradeEvent) (balance : ℚ) : Report :=
  let total_trades := (trades.filter TradeEvent.isSell).length
  let wins := (trades.filter (fun t => 0 < t.pnlOrZero)).length
  { initial_balance := INITIAL_BALANCE
    final_balance := balance
    total_trades := total_trades
    win_rate := if 0 < total_trades then (wins : ℚ) / (total_trades : ℚ) * 100 else 0
    trades := trades }

/-- The sum of the `pnl` fields of the `Sell` events of a journal. -/
def sumSellPnl (ts : List TradeEvent) : ℚ :=
  ((ts.filter TradeEvent.isSell).map TradeEvent.pnlOrZero).sum

/-- The pnl lookup (default 0) summed over the whole journal. -/
def sumPnl (ts : List TradeEvent) : ℚ :=
  (ts.map TradeEvent.pnlOrZero).sum

/-- RSI value from a smoothed average gain/loss pair.
Modelled from the spec: `add_indicators` delegates the RSI column to the
external `talib.RSI` routine, whose source is not part of this
repository; the spec (§4.1) defines it as
`RSI = 100 - 100/(1+RS)`, `RS = avgGain/avgLoss`, with the edge cases
`avgLoss = 0 ∧ avgGain > 0 → 100` and `avgLoss = avgGain = 0 → 50`. -/
def rsiPoint (avgGain avgLoss : ℚ) : ℚ :=
  if avgLoss = 0 then
    if 0 < avgGain then 100 else 50
  else 100 - 100 / (1 + avgGain / avgLoss)

/-- One Wilder smoothing step on the (avgGain, avgLoss) pair.
Modelled from the spec (§4.1):
`avgGain_i = (avgGain_{i-1}*(period-1) + g_i)/period`, same for loss. -/
def wilderStep (period : ℕ) (a : ℚ × ℚ) (d : ℚ) : ℚ × ℚ :=
  ((a.1 * ((period : ℚ) - 1) + max d 0) / (period : ℚ),
   (a.2 * ((period : ℚ) - 1) + max (-d) 0) / (period : ℚ))

/-- The `rsi_14` column.
Modelled from the spec: `talib.RSI(prices, timeperiod=period)` is
external to this repository; the spec (§4.1) describes it as the
Wilder-style smoothed RSI: per-step deltas, gains/losses split, seed
averages at index `period` as simple means of the first `period`
gains/losses, Wilder smoothing afterwards, `rsiPoint` for the value, and
`none` (NaN) for the first `period` indices (warm-up). -/
def computeRSI (prices : List ℚ) (period : ℕ) : List (Option ℚ) :=
  let deltas := List.zipWith (fun a b => b - a) prices prices.tail
  if deltas.length < period then
    List.replicate prices.length none
  else
    let seedG := ((deltas.take period).map (fun d => max d 0)).sum / (period : ℚ)
    let seedL := ((deltas.take period).map (fun d => max (-d) 0)).sum / (period : ℚ)
    let avgs := (deltas.drop period).scanl (wilderStep period) (seedG, seedL)
    List.replicate period none ++ avgs.map (fun a => some (rsiPoint a.1 a.2))

/-- Pair each price with its `rsi_14` value and its positional timestamp:
the rows handed to the loop of `run_simulation` by `iterrows`. -/
def mkRows : List ℚ → List (Option ℚ) → ℕ → List Row
  | p :: ps, q :: qs, i => ⟨p, i, q⟩ :: mkRows ps qs (i + 1)
  | _, _, _ => []

/-- The whole pipeline on an in-memory price sequence:
`add_indicators` (RSI 14) then `run_simulation` then `generate_report`. -/
def runBacktest (prices : List ℚ) : Report :=
  let s := runSimulation (mkRows prices (computeRSI prices 14) 0)
  generate_report s.trades s.balance

/-- Failure to acquire or parse the input sequence.
Modelled from the spec (§7): `load_data` wraps acquisition in
try/except and on any exception terminates before the core runs
(`sys.exit(1)` in the code); the spec surfaces this as a
`DataSourceError` to the caller. -/
inductive DataSourceError where
  | loadFailure (msg : String)
deriving DecidableEq, Repr

/-- The `__main__` flow after engine construction: `load_data`, then the
core (`add_indicators`, `run_simulation`, `generate_report`).
Modelled from the spec (§7): a failed load is surfaced as
`DataSourceError` and the core is never entered (in the code,
`sys.exit(1)` terminates the process before any simulation step). -/
def loadAndRun (source : Except DataSourceError (List ℚ)) :
    Except DataSourceError Report :=
  match source with
  | .error e => .error e
  | .ok prices => .ok (runBacktest prices)

/-- The `balance` field of a SELL entry (`none` for BUY). -/
def TradeEvent.balanceAfter : TradeEvent → Option ℚ
  | .buy _ _ => none
  | .sell _ _ _ b => some b

/-- Number of BUY entries in a journal. -/
def countBuy (ts : List TradeEvent) : ℕ :=
  (ts.filter TradeEvent.isBuy).length

/-- Number of SELL entries in a journal. -/
def countSell (ts : List TradeEvent) : ℕ :=
  (ts.filter TradeEvent.isSell).length

/-- Number of SELL entries with strictly positive pnl. -/
def sellWins (ts : List TradeEvent) : ℕ :=
  (ts.filter (fun t => t.isSell && decide (0 < t.pnlOrZero))).length

/-- The journal alternates starting with an event of kind `b`
(`true` = BUY first). -/
def altFrom : Bool → List TradeEvent → Bool
  | _, [] => true
  | b, t :: ts => (t.isBuy == b) && altFrom (!b) ts

/-- Every SELL entry records the running balance: starting from `acc`,
the `balance` field of each SELL equals the balance before it plus its
own `pnl`. -/
def sellsOk : ℚ → List TradeEvent → Bool
  | _, [] => true
  | acc, .buy _ _ :: ts => sellsOk acc ts
  | acc, .sell _ _ pnl b :: ts => (b == acc + pnl) && sellsOk (acc + pnl) ts

/-! ### Basic lemmas about the helpers -/

@[simp]
lemma sumPnl_nil : sumPnl [] = 0 := rfl

@[simp]
lemma sumPnl_cons (t : TradeEvent) (ts : List TradeEvent) :
    sumPnl (t :: ts) = t.pnlOrZero + sumPnl ts := by
  simp [sumPnl]

@[simp]
lemma sumPnl_append (ts us : List TradeEvent) :
    sumPnl (ts ++ us) = sumPnl ts + sumPnl us := by
  simp [sumPnl]

lemma sumSellPnl_eq_sumPnl (ts : List TradeEvent) : sumSellPnl ts = sumPnl ts := by
  induction ts with
  | nil => rfl
  | cons t ts ih =>
    cases t <;>
      simp [sumSellPnl, sumPnl, TradeEvent.isSell, TradeEvent.pnlOrZero,
        List.filter_cons] at ih ⊢ <;> simp [ih]

@[simp]
lemma step_none (s : SimState) (r : Row) (h : r.rsi = none) : step s r = s := by
  unfold step
  rw [h]

lemma step_some (s : SimState) (r : Row) (v : ℚ) (h : r.rsi = some v) :
    step s r =
      if s.in_position = false ∧ v < 30 then
        { s with entry_price := r.price, entry_time := some r.time,
                 in_position := true,
                 trades := s.trades ++ [TradeEvent.buy r.price r.time] }
      else if s.in_position = true ∧ v > 70 then
        { s with balance := s.balance + (r.price - s.entry_price) * STAKE_AMOUNT,
                 in_position := false,
                 trades := s.trades ++
                   [TradeEvent.sell r.price r.time
                     ((r.price - s.entry_price) * STAKE_AMOUNT)
                     (s.balance + (r.price - s.entry_price) * STAKE_AMOUNT)] }
      else s := by
  unfold step
  rw [h]

@[simp]
lemma altFrom_nil (b : Bool) : altFrom b [] = true := rfl

lemma altFrom_cons (b : Bool) (t : TradeEvent) (ts : List TradeEvent)
    (h : altFrom b (t :: ts) = true) : t.isBuy = b ∧ altFrom (!b) ts = true := by
  simpa [altFrom, Bool.and_eq_true] using h

lemma altFrom_append (b : Bool) (ts : List TradeEvent) (e : TradeEvent) :
    altFrom b (ts ++ [e])
      = (altFrom b ts && (e.isBuy == (b == decide (ts.length % 2 = 0)))) := by
  induction ts generalizing b with
  | nil => cases e <;> cases b <;> simp [altFrom, TradeEvent.isBuy]
  | cons t ts ih =>
    have hmod : decide ((t :: ts).length % 2 = 0) = !decide (ts.length % 2 = 0) := by
      rcases Nat.mod_two_eq_zero_or_one ts.length with h | h <;>
        simp [List.length_cons, Nat.add_mod, h]
    show ((t.isBuy == b) && altFrom (!b) (ts ++ [e])) = _
    rw [ih (!b), hmod]
    show ((t.isBuy == b) &&
          (altFrom (!b) ts && (e.isBuy == ((!b) == decide (ts.length % 2 = 0)))))
        = (((t.isBuy == b) && altFrom (!b) ts)
            && (e.isBuy == (b == !decide (ts.length % 2 = 0))))
    generalize (t.isBuy == b) = x
    generalize altFrom (!b) ts = y
    generalize e.isBuy = z
    generalize decide (ts.length % 2 = 0) = d
    cases b <;> cases x <;> cases y <;> cases z <;> cases d <;> rfl

lemma altFrom_chain (ts : List TradeEvent) :
    ∀ b, altFrom b ts = true →
      List.Chain' (fun a c => a.isBuy ≠ c.isBuy) ts := by
  induction ts with
  | nil => intro b _; simp
  | cons t ts ih =>
    intro b h
    obtain ⟨h1, h2⟩ := altFrom_cons _ _ _ h
    cases ts with
    | nil => simp
    | cons u us =>
      obtain ⟨h1', _⟩ := altFrom_cons _ _ _ h2
      refine List.chain'_cons.mpr ⟨?_, ih (!b) h2⟩
      rw [h1, h1']
      cases b <;> simp

lemma altFrom_getLast? (ts : List TradeEvent) :
    ∀ b e, altFrom b ts = true → ts.getLast? = some e →
      e.isBuy = (if ts.length % 2 = 1 then b else !b) := by
  induction ts with
  | nil => intro b e _ hl; simp [List.getLast?] at hl
  | cons t ts ih =>
    intro b e h hl
    obtain ⟨h1, h2⟩ := altFrom_cons _ _ _ h
    cases ts with
    | nil =>
      simp [List.getLast?] at hl
      subst hl
      simpa using h1
    | cons u us =>
      have hl' : (u :: us).getLast? = some e := by
        simpa [List.getLast?_cons_cons] using hl
      have hrec := ih (!b) e h2 hl'
      rcases Nat.mod_two_eq_zero_or_one (u :: us).length with hm | hm
      · have hm' : (t :: u :: us).length % 2 = 1 := by
          simp only [List.length_cons] at hm ⊢
          omega
        rw [hm'] at *
        rw [hrec, if_neg (by omega : ¬ (u :: us).length % 2 = 1), if_pos rfl]
        simp
      · have hm' : ¬ (t :: u :: us).length % 2 = 1 := by
          simp only [List.length_cons] at hm ⊢
          omega
        rw [hrec, if_pos hm, if_neg hm']

lemma altFrom_head? (b : Bool) (t : TradeEvent) (ts : List TradeEvent)
    (h : altFrom b (t :: ts) = true) : t.isBuy = b :=
  (altFrom_cons _ _ _ h).1

lemma isBuy_eq_true_iff (e : TradeEvent) :
    e.isBuy = true ↔ ∃ p t, e = TradeEvent.buy p t := by
  cases e <;> simp [TradeEvent.isBuy]

lemma isBuy_eq_false_iff (e : TradeEvent) :
    e.isBuy = false ↔ ∃ p t pnl b, e = TradeEvent.sell p t pnl b := by
  cases e <;> simp [TradeEvent.isBuy]

@[simp]
lemma countBuy_nil : countBuy [] = 0 := rfl

@[simp]
lemma countSell_nil : countSell [] = 0 := rfl

@[simp]
lemma countBuy_append_buy (ts : List TradeEvent) (p : ℚ) (t : ℕ) :
    countBuy (ts ++ [TradeEvent.buy p t]) = countBuy ts + 1 := by
  simp [countBuy, List.filter_append, TradeEvent.isBuy]

@[simp]
lemma countSell_append_buy (ts : List TradeEvent) (p : ℚ) (t : ℕ) :
    countSell (ts ++ [TradeEvent.buy p t]) = countSell ts := by
  simp [countSell, List.filter_append, TradeEvent.isSell]

@[simp]
lemma countBuy_append_sell (ts : List TradeEvent) (p : ℚ) (t : ℕ) (pnl b : ℚ) :
    countBuy (ts ++ [TradeEvent.sell p t pnl b]) = countBuy ts := by
  simp [countBuy, List.filter_append, TradeEvent.isBuy]

@[simp]
lemma countSell_append_sell (ts : List TradeEvent) (p : ℚ) (t : ℕ) (pnl b : ℚ) :
    countSell (ts ++ [TradeEvent.sell p t pnl b]) = countSell ts + 1 := by
  simp [countSell, List.filter_append, TradeEvent.isSell]

lemma sellsOk_append_buy (a : ℚ) (ts : List TradeEvent) (p : ℚ) (t : ℕ) :
    sellsOk a (ts ++ [TradeEvent.buy p t]) = sellsOk a ts := by
  induction ts generalizing a with
  | nil => rfl
  | cons u us ih =>
    cases u with
    | buy p' t' => simpa [sellsOk] using ih a
    | sell p' t' pnl' b' => simp [sellsOk, ih (a + pnl')]

lemma sellsOk_append_sell (a : ℚ) (ts : List TradeEvent) (p : ℚ) (t : ℕ)
    (pnl b : ℚ) (h : sellsOk a ts = true) (hb : b = a + sumPnl ts + pnl) :
    sellsOk a (ts ++ [TradeEvent.sell p t pnl b]) = true := by
  induction ts generalizing a with
  | nil =>
    simp only [List.nil_append, sellsOk, Bool.and_eq_true, beq_iff_eq]
    constructor
    · rw [hb]; simp
    · trivial
  | cons u us ih =>
    cases u with
    | buy p' t' =>
      simp only [sellsOk] at h ⊢
      exact ih a h (by simpa [TradeEvent.pnlOrZero] using hb)
    | sell p' t' pnl' b' =>
      simp only [sellsOk, Bool.and_eq_true, beq_iff_eq] at h ⊢
      refine ⟨h.1, ih (a + pnl') h.2 ?_⟩
      rw [hb]
      simp [TradeEvent.pnlOrZero]
      ring

lemma sellsOk_decomp :
    ∀ (pre : List TradeEvent) (a p : ℚ) (t : ℕ) (pnl b : ℚ)
      (post : List TradeEvent),
      sellsOk a (pre ++ TradeEvent.sell p t pnl b :: post) = true →
      b = a + sumPnl pre + pnl := by
  intro pre
  induction pre with
  | nil =>
    intro a p t pnl b post h
    simp only [List.nil_append, sellsOk, Bool.and_eq_true, beq_iff_eq] at h
    rw [h.1]; simp
  | cons u us ih =>
    intro a p t pnl b post h
    cases u with
    | buy p' t' =>
      simp only [List.cons_append, sellsOk] at h
      have := ih a p t pnl b post h
      rw [this]
      simp [TradeEvent.pnlOrZero]
    | sell p' t' pnl' b' =>
      simp only [List.cons_append, sellsOk, Bool.and_eq_true, beq_iff_eq] at h
      have := ih (a + pnl') p t pnl b post h.2
      rw [this]
      simp [TradeEvent.pnlOrZero]
      ring

/-- The reachable-state invariant of the simulation loop: the journal
alternates BUY/SELL starting with BUY, `in_position` mirrors the parity
of the journal length, the balance is the initial balance plus all the
booked pnl, every SELL entry recorded the running balance, BUY entries
outnumber SELL entries by exactly the open position, and while a
position is open the last journal entry is the BUY that opened it. -/
def Inv (s : SimState) : Prop :=
  altFrom true s.trades = true ∧
  s.in_position = decide (s.trades.length % 2 = 1) ∧
  s.balance = INITIAL_BALANCE + sumPnl s.trades ∧
  sellsOk INITIAL_BALANCE s.trades = true ∧
  countBuy s.trades = countSell s.trades + (if s.in_position then 1 else 0) ∧
  (s.in_position = true → ∃ t, s.entry_time = some t ∧
     s.trades.getLast? = some (TradeEvent.buy s.entry_price t))

lemma inv_initState : Inv initState := by
  refine ⟨rfl, rfl, by simp [initState], rfl, rfl, ?_⟩
  intro h
  simp [initState] at h

lemma step_inv (s : SimState) (r : Row) (h : Inv s) : Inv (step s r) := by
  obtain ⟨h1, h2, h3, h4, h5, h6⟩ := h
  cases hr : r.rsi with
  | none => rw [step_none s r hr]; exact ⟨h1, h2, h3, h4, h5, h6⟩
  | some v =>
    rw [step_some s r v hr]
    by_cases hbuy : s.in_position = false ∧ v < 30
    · rw [if_pos hbuy]
      have hlen : s.trades.length % 2 = 0 := by
        rw [hbuy.1] at h2
        rcases Nat.mod_two_eq_zero_or_one s.trades.length with hm | hm
        · exact hm
        · rw [hm] at h2; simp at h2
      refine ⟨?_, ?_, ?_, ?_, ?_, ?_⟩
      · show altFrom true (s.trades ++ [TradeEvent.buy r.price r.time]) = true
        rw [altFrom_append]
        simp [h1, TradeEvent.isBuy, hlen]
      · show true = decide ((s.trades ++ [TradeEvent.buy r.price r.time]).length % 2 = 1)
        have : (s.trades ++ [TradeEvent.buy r.price r.time]).length
            = s.trades.length + 1 := by simp
        rw [this]
        have : (s.trades.length + 1) % 2 = 1 := by omega
        simp [this]
      · show s.balance = INITIAL_BALANCE + sumPnl (s.trades ++ [TradeEvent.buy r.price r.time])
        simpa [TradeEvent.pnlOrZero] using h3
      · show sellsOk INITIAL_BALANCE (s.trades ++ [TradeEvent.buy r.price r.time]) = true
        rw [sellsOk_append_buy]
        exact h4
      · show countBuy (s.trades ++ [TradeEvent.buy r.price r.time])
            = countSell (s.trades ++ [TradeEvent.buy r.price r.time]) + 1
        rw [hbuy.1] at h5
        simp at h5
        simp [h5]
      · intro _
        refine ⟨r.time, rfl, ?_⟩
        show (s.trades ++ [TradeEvent.buy r.price r.time]).getLast? = _
        rw [List.getLast?_concat]
    · rw [if_neg hbuy]
      by_cases hsell : s.in_position = true ∧ v > 70
      · rw [if_pos hsell]
        have hlen : s.trades.length % 2 = 1 := by
          rw [hsell.1] at h2
          rcases Nat.mod_two_eq_zero_or_one s.trades.length with hm | hm
          · rw [hm] at h2; simp at h2
          · exact hm
        set e := TradeEvent.sell r.price r.time
          ((r.price - s.entry_price) * STAKE_AMOUNT)
          (s.balance + (r.price - s.entry_price) * STAKE_AMOUNT) with he
        refine ⟨?_, ?_, ?_, ?_, ?_, ?_⟩
        · show altFrom true (s.trades ++ [e]) = true
          rw [altFrom_append]
          have : ¬ s.trades.length % 2 = 0 := by omega
          simp [h1, he, TradeEvent.isBuy, this]
        · show false = decide ((s.trades ++ [e]).length % 2 = 1)
          have hl : (s.trades ++ [e]).length = s.trades.length + 1 := by simp
          rw [hl]
          have : ¬ (s.trades.length + 1) % 2 = 1 := by omega
          simp [this]
        · show s.balance + (r.price - s.entry_price) * STAKE_AMOUNT
              = INITIAL_BALANCE + sumPnl (s.trades ++ [e])
          rw [he]
          simp [TradeEvent.pnlOrZero, h3]
          ring
        · show sellsOk INITIAL_BALANCE (s.trades ++ [e]) = true
          rw [he]
          exact sellsOk_append_sell _ _ _ _ _ _ h4 (by rw [h3])
        · show countBuy (s.trades ++ [e]) = countSell (s.trades ++ [e]) + 0
          rw [hsell.1] at h5
          simp at h5
          simp [he, h5]
        · intro hcontra
          simp at hcontra
      · rw [if_neg hsell]
        exact ⟨h1, h2, h3, h4, h5, h6⟩

lemma runSim_inv (rows : List Row) :
    ∀ s : SimState, Inv s → Inv (runSim s rows) := by
  induction rows with
  | nil => intro s h; exact h
  | cons r rs ih =>
    intro s h
    exact ih (step s r) (step_inv s r h)

lemma runSimulation_inv (rows : List Row) : Inv (runSimulation rows) :=
  runSim_inv rows initState inv_initState

lemma length_filter_mono {α : Type} (p q : α → Bool)
    (h : ∀ a, p a = true → q a = true) :
    ∀ l : List α, (l.filter p).length ≤ (l.filter q).length := by
  intro l
  induction l with
  | nil => simp
  | cons a l ih =>
    by_cases hp : p a = true
    · rw [List.filter_cons_of_pos hp, List.filter_cons_of_pos (h a hp)]
      simpa using ih
    · rw [List.filter_cons_of_neg (by simpa using hp)]
      by_cases hq : q a = true
      · rw [List.filter_cons_of_pos hq]
        exact Nat.le_trans ih (by simp)
      · rw [List.filter_cons_of_neg (by simpa using hq)]
        exact ih

/-! ### Warm-up and flat-price behaviour of the pipeline -/

lemma step_initState_neutral (r : Row)
    (h : r.rsi = none ∨ ∃ v, r.rsi = some v ∧ ¬ v < 30) :
    step initState r = initState := by
  rcases h with h | ⟨v, hv, hlt⟩
  · exact step_none _ _ h
  · rw [step_some _ _ v hv]
    have c1 : ¬ (initState.in_position = false ∧ v < 30) := fun hc => hlt hc.2
    have c2 : ¬ (initState.in_position = true ∧ v > 70) := by
      intro hc
      exact absurd hc.1 (by simp [initState])
    rw [if_neg c1, if_neg c2]

lemma runSim_init_neutral (rows : List Row)
    (h : ∀ r ∈ rows, r.rsi = none ∨ ∃ v, r.rsi = some v ∧ ¬ v < 30) :
    runSim initState rows = initState := by
  induction rows with
  | nil => rfl
  | cons r rs ih =>
    show runSim (step initState r) rs = initState
    rw [step_initState_neutral r (h r (by simp))]
    exact ih (fun r' hr' => h r' (by simp [hr']))

lemma mem_mkRows_rsi :
    ∀ (ps : List ℚ) (qs : List (Option ℚ)) (i : ℕ) (r : Row),
      r ∈ mkRows ps qs i → r.rsi ∈ qs := by
  intro ps
  induction ps with
  | nil =>
    intro qs i r hr
    cases qs <;> simp [mkRows] at hr
  | cons p ps ih =>
    intro qs i r hr
    cases qs with
    | nil => simp [mkRows] at hr
    | cons q qs =>
      rw [show mkRows (p :: ps) (q :: qs) i = ⟨p, i, q⟩ :: mkRows ps qs (i + 1)
           from rfl] at hr
      rcases List.mem_cons.mp hr with rfl | hr
      · exact List.mem_cons_self _ _
      · exact List.mem_cons_of_mem _ (ih qs (i + 1) r hr)

lemma deltas_replicate (n : ℕ) (c : ℚ) :
    List.zipWith (fun a b => b - a) (List.replicate n c) (List.replicate n c).tail
      = List.replicate (n - 1) (0 : ℚ) := by
  rw [List.tail_replicate, List.zipWith_replicate]
  have hmin : min n (n - 1) = n - 1 := by omega
  rw [hmin, sub_self]

lemma wilderStep_zero : wilderStep 14 (0 : ℚ × ℚ) 0 = (0 : ℚ × ℚ) := by
  simp [wilderStep, Prod.ext_iff]

lemma scanl_wilder_zero :
    ∀ k : ℕ, List.scanl (wilderStep 14) (0 : ℚ × ℚ) (List.replicate k 0)
      = List.replicate (k + 1) (0 : ℚ × ℚ) := by
  intro k
  induction k with
  | zero => rfl
  | succ k ih =>
    rw [List.replicate_succ, List.scanl_cons, wilderStep_zero, ih,
      List.replicate_succ, List.singleton_append]
    simp [List.replicate_succ]

lemma rsiPoint_zero_zero : rsiPoint 0 0 = 50 := by
  norm_num [rsiPoint]

lemma computeRSI_replicate (n : ℕ) (c : ℚ) (h : 14 < n) :
    computeRSI (List.replicate n c) 14
      = List.replicate 14 none ++ List.replicate (n - 14) (some (50 : ℚ)) := by
  simp only [computeRSI]
  rw [deltas_replicate, List.length_replicate,
    if_neg (by omega : ¬ (n - 1 < 14)),
    List.take_replicate, List.drop_replicate, List.map_replicate,
    show min 14 (n - 1) = 14 from by omega]
  norm_num
  rw [scanl_wilder_zero, List.map_replicate]
  simp only [Prod.fst_zero, Prod.snd_zero, rsiPoint_zero_zero]
  rw [show n - 1 - 14 + 1 = n - 14 from by omega]

/-! ### The claims -/

/-- C1: for every input tick sequence, after the simulation completes the
final balance of the report equals the initial balance plus the sum of
the `pnl` fields of all `Sell` events in the trade journal, exactly. -/
theorem final_balance_eq_initial_plus_sumSellPnl (rows : List Row) :
    (generate_report (runSimulation rows).trades (runSimulation rows).balance).final_balance
      = (generate_report (runSimulation rows).trades
            (runSimulation rows).balance).initial_balance
        + sumSellPnl (generate_report (runSimulation rows).trades
            (runSimulation rows).balance).trades := by
  obtain ⟨-, -, h3, -, -, -⟩ := runSimulation_inv rows
  show (runSimulation rows).balance
      = INITIAL_BALANCE + sumSellPnl (runSimulation rows).trades
  rw [sumSellPnl_eq_sumPnl]
  exact h3

/-- C3: a tick whose RSI is undefined (warm-up, NaN in the code) leaves
the whole simulation state untouched: no journal entry, no transition,
no balance change, whatever the price and the position state. -/
theorem warmup_tick_inert (s : SimState) (r : Row) (h : r.rsi = none) :
    step s r = s :=
  step_none s r h

/-- Witness for C3 at a concrete state and tick. -/
theorem warmup_tick_inert_witness :
    (Row.mk 100 0 none).rsi = none ∧ step initState (Row.mk 100 0 none) = initState :=
  ⟨rfl, warmup_tick_inert initState (Row.mk 100 0 none) rfl⟩

/-- C4: the position state is a two-valued flag (`Flat`/`Long`); from a
`Long` state a step never appends a `Buy` (entry is only evaluated from
`Flat`, so `Long` never transitions directly to another `Long`); and in
any journal the simulation produces, no two consecutive entries are of
the same kind. -/
theorem position_mutual_exclusion :
    (∀ (s : SimState) (r : Row), s.in_position = true →
        (step s r).trades = s.trades ∨
          ∃ p t pnl b, (step s r).trades = s.trades ++ [TradeEvent.sell p t pnl b]) ∧
    (∀ rows : List Row,
        List.Chain' (fun a c => a.isBuy ≠ c.isBuy) (runSimulation rows).trades) ∧
    (∀ (s : SimState) (rows : List Row),
        (runSim s rows).in_position = true ∨ (runSim s rows).in_position = false) := by
  refine ⟨?_, ?_, ?_⟩
  · intro s r h
    cases hr : r.rsi with
    | none => left; rw [step_none s r hr]
    | some v =>
      rw [step_some s r v hr]
      by_cases hbuy : s.in_position = false ∧ v < 30
      · rw [h] at hbuy
        simp at hbuy
      · rw [if_neg hbuy]
        by_cases hsell : s.in_position = true ∧ v > 70
        · rw [if_pos hsell]
          right
          exact ⟨r.price, r.time, _, _, rfl⟩
        · rw [if_neg hsell]
          left
          rfl
  · intro rows
    obtain ⟨h1, -, -, -, -, -⟩ := runSimulation_inv rows
    exact altFrom_chain _ true h1
  · intro s rows
    cases (runSim s rows).in_position <;> simp

/-- Witness for C4: a concrete `Long` state stepped on a sell signal,
and a concrete two-tick run. -/
theorem position_mutual_exclusion_witness :
    (SimState.mk true 100 (some 0) 10000 [TradeEvent.buy 100 0]).in_position = true ∧
    ((step (SimState.mk true 100 (some 0) 10000 [TradeEvent.buy 100 0])
          (Row.mk 110 1 (some 80))).trades = [TradeEvent.buy 100 0] ∨
      ∃ p t pnl b,
        (step (SimState.mk true 100 (some 0) 10000 [TradeEvent.buy 100 0])
            (Row.mk 110 1 (some 80))).trades
          = [TradeEvent.buy 100 0] ++ [TradeEvent.sell p t pnl b]) ∧
    List.Chain' (fun a c => a.isBuy ≠ c.isBuy)
      (runSimulation [Row.mk 100 0 (some 20), Row.mk 110 1 (some 80)]).trades :=
  ⟨rfl, position_mutual_exclusion.1 _ _ rfl, position_mutual_exclusion.2.1 _⟩

/-- C7: when acquisition/parsing of the input fails, the failure is
surfaced to the caller as a `DataSourceError` and the core never runs:
no report is produced. -/
theorem load_failure_no_simulation (e : DataSourceError) :
    loadAndRun (Except.error e) = Except.error e ∧
    ∀ rep : Report, loadAndRun (Except.error e) ≠ Except.ok rep := by
  refine ⟨rfl, ?_⟩
  intro rep h
  simp [loadAndRun] at h

/-- Witness for C7 at a concrete failure. -/
theorem load_failure_no_simulation_witness :
    loadAndRun (Except.error (DataSourceError.loadFailure "missing file"))
      = Except.error (DataSourceError.loadFailure "missing file") ∧
    loadAndRun (Except.error (DataSourceError.loadFailure "missing file"))
      ≠ Except.ok (generate_report [] INITIAL_BALANCE) :=
  ⟨(load_failure_no_simulation _).1, (load_failure_no_simulation _).2 _⟩

/-- C9: in every journal the simulation produces, the first event (if
any) is a `Buy`, the events alternate `Buy, Sell, Buy, Sell, ...`, and
the number of `Buy` events exceeds the number of `Sell` events by 0
or 1. -/
theorem journal_starts_buy_alternates (rows : List Row) :
    ((runSimulation rows).trades ≠ [] →
        ∃ p t, (runSimulation rows).trades.head? = some (TradeEvent.buy p t)) ∧
    altFrom true (runSimulation rows).trades = true ∧
    (countBuy (runSimulation rows).trades = countSell (runSimulation rows).trades ∨
      countBuy (runSimulation rows).trades
        = countSell (runSimulation rows).trades + 1) := by
  obtain ⟨h1, -, -, -, h5, -⟩ := runSimulation_inv rows
  refine ⟨?_, h1, ?_⟩
  · intro hne
    rw [show (runSimulation rows).trades.head?
        = (runSimulation rows).trades.head? from rfl]
    cases hts : (runSimulation rows).trades with
    | nil => exact absurd hts hne
    | cons t ts =>
      rw [hts] at h1
      obtain ⟨p, tm, rfl⟩ := (isBuy_eq_true_iff t).mp (altFrom_head? true t ts h1)
      exact ⟨p, tm, rfl⟩
  · cases hpos : (runSimulation rows).in_position
    · rw [hpos] at h5
      simp at h5
      left
      exact h5
    · rw [hpos] at h5
      right
      exact h5

/-- C2: on a constant-price sequence longer than the RSI period, the RSI
column is `none` on the 14-tick warm-up and exactly 50 on every later
index, and the backtest produces no trades: `total_trades = 0` and
`final_balance = initial_balance`. -/
theorem flat_price_no_trades (c : ℚ) (n : ℕ) (h : 14 < n) :
    computeRSI (List.replicate n c) 14
      = List.replicate 14 none ++ List.replicate (n - 14) (some 50) ∧
    (runBacktest (List.replicate n c)).total_trades = 0 ∧
    (runBacktest (List.replicate n c)).final_balance
      = (runBacktest (List.replicate n c)).initial_balance := by
  have hrsi := computeRSI_replicate n c h
  have hrun : runSim initState
      (mkRows (List.replicate n c) (computeRSI (List.replicate n c) 14) 0)
        = initState := by
    apply runSim_init_neutral
    intro r hr
    have hmem := mem_mkRows_rsi _ _ _ r hr
    rw [hrsi] at hmem
    rcases List.mem_append.mp hmem with hm | hm
    · left
      exact (List.mem_replicate.mp hm).2
    · right
      exact ⟨50, (List.mem_replicate.mp hm).2, by norm_num⟩
  refine ⟨hrsi, ?_, ?_⟩
  · show (generate_report
        (runSim initState
          (mkRows (List.replicate n c) (computeRSI (List.replicate n c) 14) 0)).trades
        (runSim initState
          (mkRows (List.replicate n c) (computeRSI (List.replicate n c) 14) 0)).balance).total_trades
      = 0
    rw [hrun]
    rfl
  · show (generate_report
        (runSim initState
          (mkRows (List.replicate n c) (computeRSI (List.replicate n c) 14) 0)).trades
        (runSim initState
          (mkRows (List.replicate n c) (computeRSI (List.replicate n c) 14) 0)).balance).final_balance
      = _
    rw [hrun]
    rfl

/-- Witness for C2 at `c = 100`, `n = 15`. -/
theorem flat_price_no_trades_witness :
    14 < 15 ∧
    (computeRSI (List.replicate 15 (100 : ℚ)) 14
        = List.replicate 14 none ++ List.replicate (15 - 14) (some 50) ∧
      (runBacktest (List.replicate 15 (100 : ℚ))).total_trades = 0 ∧
      (runBacktest (List.replicate 15 (100 : ℚ))).final_balance
        = (runBacktest (List.replicate 15 (100 : ℚ))).initial_balance) :=
  ⟨by norm_num, flat_price_no_trades 100 15 (by norm_num)⟩

/-- C5: for every journal, `total_trades` counts the `Sell` events,
`win_rate` is `wins / total_trades * 100` for `total_trades > 0` (where
`wins` counts the `Sell` events with positive pnl) and `0` otherwise,
and `0 ≤ win_rate ≤ 100` always. -/
theorem report_statistics (ts : List TradeEvent) (b : ℚ) :
    (generate_report ts b).total_trades = countSell ts ∧
    (0 < countSell ts →
        (generate_report ts b).win_rate
          = ((sellWins ts : ℚ) / (countSell ts : ℚ)) * 100) ∧
    (countSell ts = 0 → (generate_report ts b).win_rate = 0) ∧
    0 ≤ (generate_report ts b).win_rate ∧ (generate_report ts b).win_rate ≤ 100 := by
  have hwins : (ts.filter (fun t => decide (0 < t.pnlOrZero))).length = sellWins ts := by
    unfold sellWins
    congr 1
    apply List.filter_congr
    intro t _
    cases t with
    | buy p tm => simp [TradeEvent.pnlOrZero, TradeEvent.isSell]
    | sell p tm pnl bb => simp [TradeEvent.isSell]
  have hle : sellWins ts ≤ countSell ts := by
    unfold sellWins countSell
    refine length_filter_mono _ _ ?_ ts
    intro t ht
    exact (Bool.and_eq_true _ _ |>.mp ht).1
  have hrate : (generate_report ts b).win_rate
      = if 0 < countSell ts
          then ((sellWins ts : ℚ) / (countSell ts : ℚ)) * 100 else 0 := by
    show (if 0 < countSell ts
        then (((ts.filter (fun t => decide (0 < t.pnlOrZero))).length : ℚ)
                / (countSell ts : ℚ)) * 100
        else 0)
      = _
    rw [hwins]
  refine ⟨rfl, ?_, ?_, ?_, ?_⟩
  · intro hpos
    rw [hrate, if_pos hpos]
  · intro hzero
    rw [hrate, if_neg (by omega)]
  · rw [hrate]
    by_cases hpos : 0 < countSell ts
    · rw [if_pos hpos]
      positivity
    · rw [if_neg hpos]
  · rw [hrate]
    by_cases hpos : 0 < countSell ts
    · rw [if_pos hpos]
      have hT : (0 : ℚ) < (countSell ts : ℚ) := by exact_mod_cast hpos
      have hwT : (sellWins ts : ℚ) ≤ (countSell ts : ℚ) := by exact_mod_cast hle
      have hdiv := (div_le_one hT).mpr hwT
      nlinarith
    · rw [if_neg hpos]
      norm_num

/-- Witness for C5 at a concrete journal with one winning sell. -/
theorem report_statistics_witness :
    0 < countSell [TradeEvent.buy 100 0, TradeEvent.sell 110 1 100 10100] ∧
    (generate_report [TradeEvent.buy 100 0, TradeEvent.sell 110 1 100 10100]
        10100).total_trades
      = countSell [TradeEvent.buy 100 0, TradeEvent.sell 110 1 100 10100] ∧
    (generate_report [TradeEvent.buy 100 0, TradeEvent.sell 110 1 100 10100]
        10100).win_rate
      = ((sellWins [TradeEvent.buy 100 0, TradeEvent.sell 110 1 100 10100] : ℚ)
          / (countSell [TradeEvent.buy 100 0, TradeEvent.sell 110 1 100 10100] : ℚ))
        * 100 ∧
    0 ≤ (generate_report [TradeEvent.buy 100 0, TradeEvent.sell 110 1 100 10100]
        10100).win_rate ∧
    (generate_report [TradeEvent.buy 100 0, TradeEvent.sell 110 1 100 10100]
        10100).win_rate ≤ 100 :=
  ⟨by decide,
    (report_statistics _ 10100).1,
    (report_statistics _ 10100).2.1 (by decide),
    (report_statistics _ 10100).2.2.2.1,
    (report_statistics _ 10100).2.2.2.2⟩

/-- C6: if the run ends while still `Long`, no closing `Sell` is
synthesized: the last journal entry is the `Buy` that opened the
position (its recorded price and time), that open trade is not counted
(`total_trades` counts only `Sell`s and `Buy`s exceed `Sell`s by one),
and the final balance carries only the realized pnl. -/
theorem open_position_not_closed (rows : List Row)
    (h : (runSimulation rows).in_position = true) :
    (runSimulation rows).trades.getLast?
      = some (TradeEvent.buy (runSimulation rows).entry_price
          (((runSimulation rows).entry_time).getD 0)) ∧
    (generate_report (runSimulation rows).trades
        (runSimulation rows).balance).total_trades
      = countSell (runSimulation rows).trades ∧
    countBuy (runSimulation rows).trades = countSell (runSimulation rows).trades + 1 ∧
    (generate_report (runSimulation rows).trades
        (runSimulation rows).balance).final_balance
      = INITIAL_BALANCE + sumSellPnl (runSimulation rows).trades := by
  obtain ⟨-, -, h3, -, h5, h6⟩ := runSimulation_inv rows
  obtain ⟨t, het, hlast⟩ := h6 h
  refine ⟨?_, rfl, ?_, ?_⟩
  · rw [hlast, het]
    rfl
  · rw [h] at h5
    simpa using h5
  · show (runSimulation rows).balance = _
    rw [sumSellPnl_eq_sumPnl]
    exact h3

/-- Witness for C6 at a one-tick run that opens a position and ends. -/
theorem open_position_not_closed_witness :
    (runSimulation [Row.mk 100 0 (some 20)]).in_position = true ∧
    ((runSimulation [Row.mk 100 0 (some 20)]).trades.getLast?
        = some (TradeEvent.buy (runSimulation [Row.mk 100 0 (some 20)]).entry_price
            (((runSimulation [Row.mk 100 0 (some 20)]).entry_time).getD 0)) ∧
      (generate_report (runSimulation [Row.mk 100 0 (some 20)]).trades
          (runSimulation [Row.mk 100 0 (some 20)]).balance).total_trades
        = countSell (runSimulation [Row.mk 100 0 (some 20)]).trades ∧
      countBuy (runSimulation [Row.mk 100 0 (some 20)]).trades
        = countSell (runSimulation [Row.mk 100 0 (some 20)]).trades + 1 ∧
      (generate_report (runSimulation [Row.mk 100 0 (some 20)]).trades
          (runSimulation [Row.mk 100 0 (some 20)]).balance).final_balance
        = INITIAL_BALANCE + sumSellPnl (runSimulation [Row.mk 100 0 (some 20)]).trades) :=
  ⟨by decide, open_position_not_closed _ (by decide)⟩

/-- C8: the recorded `balance` of every `Sell` entry is the initial balance
plus the pnl of all `Sell`s up to and including it (equivalently, the
running-balance audit `sellsOk` holds), and when the run ends `Flat`
with a non-empty journal, the last entry is a `Sell` whose recorded
balance equals the `final_balance` of the report. -/
theorem sell_balance_audit (rows : List Row) :
    sellsOk INITIAL_BALANCE (runSimulation rows).trades = true ∧
    (∀ pre p t pnl b post,
        (runSimulation rows).trades = pre ++ TradeEvent.sell p t pnl b :: post →
        b = INITIAL_BALANCE + sumSellPnl pre + pnl) ∧
    ((runSimulation rows).in_position = false → (runSimulation rows).trades ≠ [] →
        ((runSimulation rows).trades.getLast?.bind TradeEvent.balanceAfter)
          = some ((generate_report (runSimulation rows).trades
              (runSimulation rows).balance).final_balance)) := by
  obtain ⟨h1, h2, h3, h4, -, -⟩ := runSimulation_inv rows
  refine ⟨h4, ?_, ?_⟩
  · intro pre p t pnl b post hdec
    rw [hdec] at h4
    rw [sumSellPnl_eq_sumPnl]
    exact sellsOk_decomp pre INITIAL_BALANCE p t pnl b post h4
  · intro hflat hne
    cases hl : (runSimulation rows).trades.getLast? with
    | none => exact absurd (List.getLast?_eq_none_iff.mp hl) hne
    | some e =>
      have hlen1 : ¬ (runSimulation rows).trades.length % 2 = 1 := by
        intro hc
        rw [hflat, hc] at h2
        simp at h2
      have hb := altFrom_getLast? _ true e h1 hl
      rw [if_neg hlen1] at hb
      obtain ⟨p, t, pnl, b, rfl⟩ := (isBuy_eq_false_iff e).mp (by simpa using hb)
      obtain ⟨pre, hpre⟩ := List.getLast?_eq_some_iff.mp hl
      show some b = some ((runSimulation rows).balance)
      have hdecomp := sellsOk_decomp pre INITIAL_BALANCE p t pnl b []
        (by rw [← hpre]; exact h4)
      rw [h3, hpre, sumPnl_append, sumPnl_cons, sumPnl_nil, hdecomp]
      norm_num [TradeEvent.pnlOrZero]
      ring

/-- Witness for C8 at a two-tick run with one completed round trip. -/
theorem sell_balance_audit_witness :
    (runSimulation [Row.mk 100 0 (some 20), Row.mk 110 1 (some 80)]).in_position
      = false ∧
    (runSimulation [Row.mk 100 0 (some 20), Row.mk 110 1 (some 80)]).trades ≠ [] ∧
    sellsOk INITIAL_BALANCE
      (runSimulation [Row.mk 100 0 (some 20), Row.mk 110 1 (some 80)]).trades = true ∧
    (10100 : ℚ) = INITIAL_BALANCE + sumSellPnl [TradeEvent.buy 100 0] + 100 ∧
    ((runSimulation
        [Row.mk 100 0 (some 20), Row.mk 110 1 (some 80)]).trades.getLast?.bind
          TradeEvent.balanceAfter)
      = some ((generate_report
          (runSimulation [Row.mk 100 0 (some 20), Row.mk 110 1 (some 80)]).trades
          (runSimulation [Row.mk 100 0 (some 20),
            Row.mk 110 1 (some 80)]).balance).final_balance) :=
  ⟨by decide, by decide,
    (sell_balance_audit [Row.mk 100 0 (some 20), Row.mk 110 1 (some 80)]).1,
    (sell_balance_audit [Row.mk 100 0 (some 20), Row.mk 110 1 (some 80)]).2.1
      [TradeEvent.buy 100 0] 110 1 100 10100 []
      (by norm_num [runSimulation, runSim, step, initState, STAKE_AMOUNT,
        INITIAL_BALANCE]),
    (sell_balance_audit [Row.mk 100 0 (some 20), Row.mk 110 1 (some 80)]).2.2
      (by decide) (by decide)⟩

/-- C10: a price sequence of length at most the RSI period leaves the
whole RSI column undefined, so the simulation journal is empty,
`total_trades = 0`, `win_rate = 0` and the balance is untouched. -/
theorem short_sequence_no_signal (prices : List ℚ) (h : prices.length ≤ 14) :
    computeRSI prices 14 = List.replicate prices.length none ∧
    (runBacktest prices).trades = [] ∧
    (runBacktest prices).total_trades = 0 ∧
    (runBacktest prices).win_rate = 0 ∧
    (runBacktest prices).final_balance = INITIAL_BALANCE := by
  have hrsi : computeRSI prices 14 = List.replicate prices.length none := by
    simp only [computeRSI]
    rw [if_pos]
    rw [List.length_zipWith, List.length_tail]
    omega
  have hrun : runSim initState (mkRows prices (computeRSI prices 14) 0)
      = initState := by
    apply runSim_init_neutral
    intro r hr
    have hmem := mem_mkRows_rsi _ _ _ r hr
    rw [hrsi] at hmem
    left
    exact (List.mem_replicate.mp hmem).2
  refine ⟨hrsi, ?_, ?_, ?_, ?_⟩ <;>
    · show _ = _
      rw [show runBacktest prices
          = generate_report
              (runSim initState (mkRows prices (computeRSI prices 14) 0)).trades
              (runSim initState (mkRows prices (computeRSI prices 14) 0)).balance
          from rfl, hrun]
      rfl

/-- Witness for C10 at a three-tick sequence. -/
theorem short_sequence_no_signal_witness :
    ([(1 : ℚ), 2, 3] : List ℚ).length ≤ 14 ∧
    (computeRSI [(1 : ℚ), 2, 3] 14 = List.replicate ([(1 : ℚ), 2, 3]).length none ∧
      (runBacktest [(1 : ℚ), 2, 3]).trades = [] ∧
      (runBacktest [(1 : ℚ), 2, 3]).total_trades = 0 ∧
      (runBacktest [(1 : ℚ), 2, 3]).win_rate = 0 ∧
      (runBacktest [(1 : ℚ), 2, 3]).final_balance = INITIAL_BALANCE) :=
  ⟨by norm_num, short_sequence_no_signal [1, 2, 3] (by norm_num)⟩

/-- Witness for C9 at a concrete one-tick run producing a single buy. -/
theorem journal_starts_buy_alternates_witness :
    (runSimulation [Row.mk 50 0 (some 10)]).trades ≠ [] ∧
    (∃ p t, (runSimulation [Row.mk 50 0 (some 10)]).trades.head?
        = some (TradeEvent.buy p t)) ∧
    altFrom true (runSimulation [Row.mk 50 0 (some 10)]).trades = true ∧
    (countBuy (runSimulation [Row.mk 50 0 (some 10)]).trades
        = countSell (runSimulation [Row.mk 50 0 (some 10)]).trades ∨
      countBuy (runSimulation [Row.mk 50 0 (some 10)]).trades
        = countSell (runSimulation [Row.mk 50 0 (some 10)]).trades + 1) :=
  ⟨by decide, (journal_starts_buy_alternates _).1 (by decide),
    (journal_starts_buy_alternates _).2.1, (journal_starts_buy_alternates _).2.2⟩

end Backtest
